import Mathlib

/-!
Verification development for the ISPLab02 syringe-pump controller.

The repository has two source files:
  * `isplab02_modbus_controller.py` — Modbus-RTU variant: a pure frame codec
    (`ModbusRTU.calculate_crc16`, `ModbusRTU.build_request`,
    `ModbusRTU.parse_response`) plus a transaction engine
    (`ISPLab02ModbusController`).
  * `syringe_pump_controller.py` — plain command-string variant
    (`ISPLab02Controller`).

We embed the code shallowly: bytes are `Nat` values (with `< 256` bounds
carried as hypotheses where they matter), Python `bytes` become `List Nat`,
Python exceptions become `Except`/`Option` results, and the serial channel
is made explicit: each engine operation takes the bytes the channel would
return on read, and additionally returns the list of frames it wrote to the
channel, so that "performs no channel I/O" is a statement about that trace.
-/

namespace SyringePump

namespace ModbusRTU

/-- One iteration of the inner loop of `ModbusRTU.calculate_crc16`
(source lines 36-40): if the low bit of the accumulator is 1, shift right
by one and XOR with 0xA001, else just shift right by one. -/
def crcStep (crc : Nat) : Nat :=
  if crc % 2 = 1 then (crc / 2) ^^^ 0xA001 else crc / 2

/-- Processing of one input byte in `ModbusRTU.calculate_crc16`
(source lines 34-40): XOR the byte into the accumulator, then run the
inner loop 8 times. -/
def crcByte (crc b : Nat) : Nat :=
  crcStep^[8] (crc ^^^ b)

/-- `ModbusRTU.calculate_crc16` (source lines 30-41): seed the accumulator
at 0xFFFF and fold `crcByte` over the input bytes. -/
def calculate_crc16 (data : List Nat) : Nat :=
  data.foldl crcByte 0xFFFF

/-- Failure conditions of `ModbusRTU.build_request`:
`unsupportedFunction` is the `ValueError` raised for a function code other
than 3, 6 or 16 (source line 66); `fieldOutOfRange` is the `struct.error`
raised by `struct.pack` when a `B` field is not a byte or an `H` field is
not a 16-bit value; `missingValue` is the `struct.error` raised when
`value=None` reaches an `H` field of a write request. -/
inductive PackErr where
  | unsupportedFunction (code : Nat)
  | fieldOutOfRange
  | missingValue
deriving DecidableEq

/-- The data part (everything before the CRC) built by
`ModbusRTU.build_request` (source lines 56-66).  `struct.pack` is embedded
by listing the bytes each format produces — `B` is one byte, `>H` is
big-endian `[n / 256, n % 256]` — guarded by the range checks `struct.pack`
performs on every field (function-code bytes 3, 6, 16 are literals and
always in range, so no check is emitted for them). -/
def buildData (slave_id function_code register_addr : Nat)
    (value : Option Nat) (count : Nat) : Except PackErr (List Nat) :=
  if function_code = 3 then
    -- struct.pack('>BBH H', slave_id, function_code, register_addr, count)
    if slave_id < 256 ∧ register_addr < 65536 ∧ count < 65536 then
      .ok [slave_id, function_code, register_addr / 256, register_addr % 256,
           count / 256, count % 256]
    else .error .fieldOutOfRange
  else if function_code = 6 then
    -- struct.pack('>BBH H', slave_id, function_code, register_addr, value)
    match value with
    | none => .error .missingValue
    | some v =>
      if slave_id < 256 ∧ register_addr < 65536 ∧ v < 65536 then
        .ok [slave_id, function_code, register_addr / 256, register_addr % 256,
             v / 256, v % 256]
      else .error .fieldOutOfRange
  else if function_code = 16 then
    -- struct.pack('>BBH HBH', slave_id, function_code, register_addr, 1, 2, value)
    match value with
    | none => .error .missingValue
    | some v =>
      if slave_id < 256 ∧ register_addr < 65536 ∧ v < 65536 then
        .ok [slave_id, function_code, register_addr / 256, register_addr % 256,
             0, 1, 2, v / 256, v % 256]
      else .error .fieldOutOfRange
  else .error (.unsupportedFunction function_code)

/-- Appending the CRC to the data part (source lines 68-69):
`data + struct.pack('<H', crc)`, i.e. the CRC16 of the data is appended
little-endian (low byte first).  `struct.pack('<H', crc)` would also
range-check `crc < 65536`; `calculate_crc16` provably never exceeds 16 bits
(`calculate_crc16_lt` below), so the check is vacuous and not emitted. -/
def withCrc (data : List Nat) : List Nat :=
  data ++ [calculate_crc16 data % 256, calculate_crc16 data / 256]

/-- `ModbusRTU.build_request` (source lines 43-69). -/
def build_request (slave_id function_code register_addr : Nat)
    (value : Option Nat) (count : Nat) : Except PackErr (List Nat) :=
  match buildData slave_id function_code register_addr value count with
  | .error e => .error e
  | .ok data => .ok (withCrc data)

/-- `struct.unpack('>H', l)` for a two-byte slice: big-endian 16-bit value.
Out-of-bounds positions default to 0; every use in `parse_response` is
guarded by a length check making the slice exactly two bytes long. -/
def unpackBE2 (l : List Nat) : Nat :=
  l.getD 0 0 * 256 + l.getD 1 0

/-- `struct.unpack('<H', l)` for a two-byte slice: little-endian 16-bit
value. -/
def unpackLE2 (l : List Nat) : Nat :=
  l.getD 0 0 + 256 * l.getD 1 0

/-- The CRC verification performed by `ModbusRTU.parse_response`
(source lines 77-83): decode the trailing two bytes little-endian and
compare with a freshly computed CRC over the preceding bytes.
`response[-2:]` is `drop (length - 2)` and `response[:-2]` is
`take (length - 2)` for the lists of length ≥ 5 on which this runs. -/
def crcCheck (response : List Nat) : Bool :=
  unpackLE2 (response.drop (response.length - 2)) ==
    calculate_crc16 (response.take (response.length - 2))

/-- `ModbusRTU.parse_response` (source lines 71-94): reject frames shorter
than 5 bytes, reject CRC mismatches, then decode a big-endian 16-bit value
at offset 3 for function code 3 (length ≥ 7) or offset 4 for function
code 6 (length ≥ 8); anything else yields `none`.  `response[1]` is in
bounds because the length is at least 5 here; `response[3:5]` and
`response[4:6]` are `(drop k).take 2`. -/
def parse_response (response : List Nat) : Option Nat :=
  if response.length < 5 then none
  else if crcCheck response then
    let function_code := response.getD 1 0
    if function_code = 3 then
      if 7 ≤ response.length then some (unpackBE2 ((response.drop 3).take 2))
      else none
    else if function_code = 6 then
      if 8 ≤ response.length then some (unpackBE2 ((response.drop 4).take 2))
      else none
    else none
  else none

end ModbusRTU

/-- The connection-relevant fields of a controller object: `serial_conn`
(`none` when no `serial.Serial` handle was ever created, `some b` when a
handle exists with `b` recording whether it is open) and the
`is_connected` flag.  Both source classes (`ISPLab02ModbusController`,
source lines 112-126, and `ISPLab02Controller`, lines 30-41) hold exactly
these fields for connection management. -/
structure Session where
  serial_conn : Option Bool
  is_connected : Bool
deriving DecidableEq

/-- The state right after `__init__`: `serial_conn = None`,
`is_connected = False`. -/
def Session.init : Session := ⟨none, false⟩

/-- Well-formedness invariant of the reachable session states: the session
holds an open channel handle exactly when `is_connected` is set.  `connect`
establishes it (sets both), a failed `connect` changes nothing, and
`disconnect` preserves it. -/
def Session.wf (s : Session) : Prop :=
  s.serial_conn = some true ↔ s.is_connected = true

namespace ISPLab02ModbusController

/-- `ISPLab02ModbusController.disconnect` (source lines 146-151):
`if self.serial_conn and self.is_connected:` close the handle and clear
the flag, else do nothing.  (A `Serial` object is always truthy, so the
first conjunct is a handle-exists test.) -/
def disconnect (s : Session) : Session :=
  if s.serial_conn.isSome && s.is_connected then
    { serial_conn := some false, is_connected := false }
  else s

/-- `ISPLab02ModbusController.REGISTERS` (source lines 101-110): the fixed
name-to-address table, looked up with `dict.get` (missing name ↦ `None`). -/
def REGISTERS (name : String) : Option Nat :=
  if name = "MODE" then some 0x0001
  else if name = "FLOW_RATE" then some 0x0010
  else if name = "VOLUME" then some 0x0020
  else if name = "SYRINGE_DIA" then some 0x0030
  else if name = "START_STOP" then some 0x0040
  else if name = "STATUS" then some 0x0050
  else if name = "DIRECTION" then some 0x0060
  else if name = "LINEAR_SPEED" then some 0x0070
  else none

/-- `ISPLab02ModbusController.read_register` (source lines 153-184).
The serial channel is explicit: `response` is what `serial_conn.read(256)`
returns (`[]` when nothing is read before the timeout), and the second
component of the result is the list of frames written to the channel.
The source checks `if not register_addr`, which is also true for a zero
address, hence the extra `= 0` test; a `build_request` exception is caught
by the `except` handler (lines 181-182) before any write happens.
When bytes were read, `parse_response`'s result is returned as is (a parse
failure is logged inside `parse_response` but returns `None`); when no
bytes were read the fall-through returns `None` (line 184). -/
def read_register (is_connected : Bool) (slave_id : Nat) (register_name : String)
    (response : List Nat) : Option Nat × List (List Nat) :=
  if is_connected = false then (none, [])
  else
    match REGISTERS register_name with
    | none => (none, [])
    | some register_addr =>
      if register_addr = 0 then (none, [])
      else
        match ModbusRTU.build_request slave_id 3 register_addr none 1 with
        | .error _ => (none, [])
        | .ok request =>
          if response.isEmpty then (none, [request])
          else (ModbusRTU.parse_response response, [request])

/-- `ISPLab02ModbusController.write_register` (source lines 186-218), with
the channel explicit as in `read_register`.  Returns `True` exactly when
bytes were read back and `parse_response` decoded a value. -/
def write_register (is_connected : Bool) (slave_id : Nat) (register_name : String)
    (value : Nat) (response : List Nat) : Bool × List (List Nat) :=
  if is_connected = false then (false, [])
  else
    match REGISTERS register_name with
    | none => (false, [])
    | some register_addr =>
      if register_addr = 0 then (false, [])
      else
        match ModbusRTU.build_request slave_id 6 register_addr (some value) 1 with
        | .error _ => (false, [])
        | .ok request =>
          if response.isEmpty then (false, [request])
          else
            match ModbusRTU.parse_response response with
            | some _ => (true, [request])
            | none => (false, [request])

/-- `ISPLab02ModbusController.set_flow_rate` (source lines 237-251).
The float argument is modelled as a rational; the literals `0.002`, `100`
and the values exercised by the claims are exactly representable in
binary64, so the rational model agrees with Python float semantics on
them.  `int(rate_ul_min * 100)` truncates toward zero, which for the
non-negative in-range values is `Int.toNat ∘ Rat.floor`. -/
def set_flow_rate (is_connected : Bool) (slave_id : Nat) (rate_ul_min : ℚ)
    (response : List Nat) : Bool × List (List Nat) :=
  if ¬((0.002 : ℚ) ≤ rate_ul_min ∧ rate_ul_min ≤ 165871) then (false, [])
  else
    write_register is_connected slave_id "FLOW_RATE"
      ((rate_ul_min * 100).floor.toNat) response

/-- `ISPLab02ModbusController.save_to_memory` (source lines 286-300):
validates the slot number and otherwise only logs — no frame is ever
written, hence the trace is always empty. -/
def save_to_memory (slot : Int) : Bool × List (List Nat) :=
  if ¬(1 ≤ slot ∧ slot ≤ 60) then (false, []) else (true, [])

/-- `ISPLab02ModbusController.load_from_memory` (source lines 302-315):
same shape as `save_to_memory`. -/
def load_from_memory (slot : Int) : Bool × List (List Nat) :=
  if ¬(1 ≤ slot ∧ slot ≤ 60) then (false, []) else (true, [])

end ISPLab02ModbusController

namespace ISPLab02Controller

/-- `ISPLab02Controller.disconnect` (source lines 61-66 of
`syringe_pump_controller.py`): textually identical to the Modbus variant. -/
def disconnect (s : Session) : Session :=
  if s.serial_conn.isSome && s.is_connected then
    { serial_conn := some false, is_connected := false }
  else s

/-- `ISPLab02Controller.send_command` (source lines 68-99): refuse when not
connected, append CR+LF when missing, write the command, read one line
back.  `response` is the line the channel returns; the trace component
lists the command strings written. -/
def send_command (is_connected : Bool) (command : String) (response : String) :
    Option String × List String :=
  if is_connected = false then (none, [])
  else
    let cmd := if command.endsWith "\x0d\x0a" then command else command ++ "\x0d\x0a"
    (some response, [cmd])

/-- Round-half-even of a rational to an integer, the rounding `%.3f`
formatting applies to the (exactly represented) scaled value. -/
def roundHalfEven (q : ℚ) : Int :=
  let f := q.floor
  let r := q - (f : ℚ)
  if r < 1/2 then f
  else if (1/2 : ℚ) < r then f + 1
  else if f % 2 = 0 then f else f + 1

/-- Zero-padding to three digits for the fractional part of `%.3f`. -/
def pad3 (n : Nat) : String :=
  (if n < 10 then "00" else if n < 100 then "0" else "") ++ toString n

/-- Python `f"{q:.3f}"` on the rational model: round the value at the third
decimal (ties to even) and print with exactly three fractional digits. -/
def format_fix3 (q : ℚ) : String :=
  let n := roundHalfEven (q * 1000)
  (if n < 0 then "-" else "") ++ toString (n.natAbs / 1000) ++ "." ++
    pad3 (n.natAbs % 1000)

/-- `ISPLab02Controller.set_flow_rate` (source lines 123-139): validate
against 0.001–127000 μL/min, then send `RATE:<value formatted %.3f>`;
the result is `True` exactly when a (truthy, i.e. nonempty) response line
came back. -/
def set_flow_rate (is_connected : Bool) (rate_ul_min : ℚ) (response : String) :
    Bool × List String :=
  if ¬((0.001 : ℚ) ≤ rate_ul_min ∧ rate_ul_min ≤ 127000) then (false, [])
  else
    match send_command is_connected ("RATE:" ++ format_fix3 rate_ul_min) response with
    | (none, tr) => (false, tr)
    | (some r, tr) => (if r = "" then false else true, tr)

end ISPLab02Controller

/-! ## CRC16 facts

The accumulator of `calculate_crc16` stays below 2^16, each `crcStep` is
injective there (it has an explicit inverse), hence processing a byte is
injective both in the running accumulator and in the byte — which is what
makes the CRC detect every single-byte (and so every single-bit)
corruption. -/

namespace ModbusRTU

lemma xor16 {a b : Nat} (ha : a < 65536) (hb : b < 65536) : a ^^^ b < 65536 :=
  Nat.xor_lt_two_pow (n := 16) ha hb

lemma xor_cancel_right (a b : Nat) : (a ^^^ b) ^^^ b = a := by
  rw [Nat.xor_assoc, Nat.xor_self, Nat.xor_zero]

lemma xor_left_inj {a b c : Nat} (h : a ^^^ b = c ^^^ b) : a = c := by
  have := congrArg (· ^^^ b) h
  simpa [xor_cancel_right] using this

lemma xor_right_inj {a b c : Nat} (h : b ^^^ a = b ^^^ c) : a = c := by
  rw [Nat.xor_comm b a, Nat.xor_comm b c] at h
  exact xor_left_inj h

lemma crcStep_lt {c : Nat} (h : c < 65536) : crcStep c < 65536 := by
  unfold crcStep
  split
  · exact xor16 (by omega) (by norm_num)
  · omega

/-- Explicit inverse of `crcStep` on 16-bit values: the top bit of the
result records whether the dropped low bit was 1. -/
def crcStepInv (r : Nat) : Nat :=
  if 32768 ≤ r then 2 * (r ^^^ 0xA001) + 1 else 2 * r

lemma crcStepInv_crcStep {c : Nat} (h : c < 65536) : crcStepInv (crcStep c) = c := by
  unfold crcStep crcStepInv
  by_cases hp : c % 2 = 1
  · rw [if_pos hp]
    have h2 : c / 2 < 32768 := by omega
    have hbit : ((c / 2) ^^^ 0xA001).testBit 15 = true := by
      rw [Nat.testBit_xor]
      have h1 : (c / 2).testBit 15 = false :=
        Nat.testBit_lt_two_pow (by norm_num at h2 ⊢; omega)
      have h0 : (0xA001 : Nat).testBit 15 = true := by decide
      rw [h1, h0]
      decide
    have hge : 32768 ≤ (c / 2) ^^^ 0xA001 := by
      have := Nat.testBit_implies_ge hbit
      norm_num at this
      omega
    rw [if_pos hge, xor_cancel_right]
    omega
  · rw [if_neg hp]
    have h2 : c / 2 < 32768 := by omega
    rw [if_neg (by omega)]
    omega

lemma crcStep_inj {a b : Nat} (ha : a < 65536) (hb : b < 65536)
    (h : crcStep a = crcStep b) : a = b := by
  have e1 := crcStepInv_crcStep ha
  rw [h, crcStepInv_crcStep hb] at e1
  exact e1.symm

lemma iterate_crcStep_lt (n : Nat) : ∀ {c : Nat}, c < 65536 → crcStep^[n] c < 65536 := by
  induction n with
  | zero => intro c h; simpa using h
  | succ k ih =>
    intro c h
    rw [Function.iterate_succ_apply]
    exact ih (crcStep_lt h)

lemma iterate_crcStep_inj (n : Nat) : ∀ {a b : Nat}, a < 65536 → b < 65536 →
    crcStep^[n] a = crcStep^[n] b → a = b := by
  induction n with
  | zero => intro a b _ _ h; simpa using h
  | succ k ih =>
    intro a b ha hb h
    rw [Function.iterate_succ_apply, Function.iterate_succ_apply] at h
    exact crcStep_inj ha hb (ih (crcStep_lt ha) (crcStep_lt hb) h)

lemma crcByte_lt {c b : Nat} (hc : c < 65536) (hb : b < 65536) : crcByte c b < 65536 :=
  iterate_crcStep_lt 8 (xor16 hc hb)

lemma crcByte_inj_left {a b x : Nat} (ha : a < 65536) (hb : b < 65536) (hx : x < 65536)
    (h : crcByte a x = crcByte b x) : a = b :=
  xor_left_inj (iterate_crcStep_inj 8 (xor16 ha hx) (xor16 hb hx) h)

lemma crcByte_inj_right {c x y : Nat} (hc : c < 65536) (hx : x < 65536) (hy : y < 65536)
    (h : crcByte c x = crcByte c y) : x = y :=
  xor_right_inj (iterate_crcStep_inj 8 (xor16 hc hx) (xor16 hc hy) h)

/-- The CRC accumulator continued from state `c` over the bytes `l`. -/
def crcFrom (c : Nat) (l : List Nat) : Nat := l.foldl crcByte c

lemma calculate_crc16_eq_crcFrom (l : List Nat) :
    calculate_crc16 l = crcFrom 0xFFFF l := rfl

lemma crcFrom_append (c : Nat) (l₁ l₂ : List Nat) :
    crcFrom c (l₁ ++ l₂) = crcFrom (crcFrom c l₁) l₂ := by
  simp [crcFrom]

lemma crcFrom_cons (c b : Nat) (l : List Nat) :
    crcFrom c (b :: l) = crcFrom (crcByte c b) l := rfl

lemma crcFrom_lt : ∀ (l : List Nat) {c : Nat}, c < 65536 →
    (∀ b ∈ l, b < 65536) → crcFrom c l < 65536 := by
  intro l
  induction l with
  | nil => intro c hc _; simpa [crcFrom] using hc
  | cons b t ih =>
    intro c hc hl
    rw [crcFrom_cons]
    exact ih (crcByte_lt hc (hl b (by simp))) (fun x hx => hl x (by simp [hx]))

lemma crcFrom_inj : ∀ (l : List Nat) {a b : Nat}, a < 65536 → b < 65536 →
    (∀ x ∈ l, x < 65536) → crcFrom a l = crcFrom b l → a = b := by
  intro l
  induction l with
  | nil => intro a b _ _ _ h; simpa [crcFrom] using h
  | cons x t ih =>
    intro a b ha hb hl h
    rw [crcFrom_cons, crcFrom_cons] at h
    have hx : x < 65536 := hl x (by simp)
    have := ih (crcByte_lt ha hx) (crcByte_lt hb hx)
      (fun y hy => hl y (by simp [hy])) h
    exact crcByte_inj_left ha hb hx this

lemma calculate_crc16_lt {l : List Nat} (hl : ∀ b ∈ l, b < 65536) :
    calculate_crc16 l < 65536 :=
  crcFrom_lt l (by norm_num) hl

/-- Changing a single byte anywhere in the input changes the CRC. -/
lemma crc_byte_change {pre suf : List Nat} {b b' : Nat}
    (hpre : ∀ x ∈ pre, x < 65536) (hsuf : ∀ x ∈ suf, x < 65536)
    (hb : b < 65536) (hb' : b' < 65536) (hne : b ≠ b') :
    calculate_crc16 (pre ++ b :: suf) ≠ calculate_crc16 (pre ++ b' :: suf) := by
  intro h
  rw [calculate_crc16_eq_crcFrom, calculate_crc16_eq_crcFrom,
    crcFrom_append, crcFrom_append, crcFrom_cons, crcFrom_cons] at h
  have hc : crcFrom 0xFFFF pre < 65536 := crcFrom_lt pre (by norm_num) hpre
  have := crcFrom_inj suf (crcByte_lt hc hb) (crcByte_lt hc hb') hsuf h
  exact hne (crcByte_inj_right hc hb hb' this)

/-! ## Claim theorems for the frame codec -/

set_option maxRecDepth 10000

lemma build_request_fc3 {slave addr count : Nat} (v? : Option Nat)
    (hs : slave < 256) (ha : addr < 65536) (hc : count < 65536) :
    build_request slave 3 addr v? count =
      .ok (withCrc [slave, 3, addr / 256, addr % 256, count / 256, count % 256]) := by
  simp [build_request, buildData, hs, ha, hc]

lemma build_request_fc6 {slave addr value count : Nat}
    (hs : slave < 256) (ha : addr < 65536) (hv : value < 65536) :
    build_request slave 6 addr (some value) count =
      .ok (withCrc [slave, 6, addr / 256, addr % 256, value / 256, value % 256]) := by
  simp [build_request, buildData, hs, ha, hv]

lemma build_request_fc16 {slave addr value count : Nat}
    (hs : slave < 256) (ha : addr < 65536) (hv : value < 65536) :
    build_request slave 16 addr (some value) count =
      .ok (withCrc [slave, 16, addr / 256, addr % 256, 0, 1, 2, value / 256, value % 256]) := by
  simp [build_request, buildData, hs, ha, hv]

lemma build_request_unsupported {slave addr count : Nat} (v? : Option Nat) (fc : Nat)
    (h3 : fc ≠ 3) (h6 : fc ≠ 6) (h16 : fc ≠ 16) :
    build_request slave fc addr v? count = .error (.unsupportedFunction fc) := by
  simp [build_request, buildData, h3, h6, h16]

/-- Claim C1: for every slave id, 16-bit register address, 16-bit value and
register count, `build_request` with function code 3 returns exactly
`[slave][0x03][addr_hi][addr_lo][count_hi][count_lo][crc_lo][crc_hi]`, with
function code 6 exactly `[slave][0x06][addr_hi][addr_lo][value_hi][value_lo]
[crc_lo][crc_hi]`, and with function code 16 exactly `[slave][0x10][addr_hi]
[addr_lo][0x00][0x01][0x02][value_hi][value_lo][crc_lo][crc_hi]`, the
trailing two bytes being the CRC16 of all preceding bytes appended
little-endian (`withCrc`); every other function code fails with the
invalid-argument condition.  The two concrete frames of the claim are
included with their CRC bytes spelled out (132 27 is 0x1B84 little-endian,
73 222 is 0xDE49 little-endian). -/
theorem C1_build_request_layout (slave addr value count : Nat)
    (hs : slave < 256) (ha : addr < 65536) (hv : value < 65536) (hc : count < 65536) :
    build_request slave 3 addr (some value) count =
      .ok (withCrc [slave, 3, addr / 256, addr % 256, count / 256, count % 256])
    ∧ build_request slave 6 addr (some value) count =
      .ok (withCrc [slave, 6, addr / 256, addr % 256, value / 256, value % 256])
    ∧ build_request slave 16 addr (some value) count =
      .ok (withCrc [slave, 16, addr / 256, addr % 256, 0, 1, 2, value / 256, value % 256])
    ∧ (∀ fc, fc ≠ 3 → fc ≠ 6 → fc ≠ 16 →
        build_request slave fc addr (some value) count = .error (.unsupportedFunction fc))
    ∧ build_request 1 3 0x50 none 1 = .ok ([1, 3, 0, 0x50, 0, 1] ++ [132, 27])
    ∧ calculate_crc16 [1, 3, 0, 0x50, 0, 1] = 27 * 256 + 132
    ∧ build_request 1 6 0x40 (some 1) 1 = .ok ([1, 6, 0, 0x40, 0, 1] ++ [73, 222])
    ∧ calculate_crc16 [1, 6, 0, 0x40, 0, 1] = 222 * 256 + 73 :=
  ⟨build_request_fc3 (some value) hs ha hc, build_request_fc6 hs ha hv,
   build_request_fc16 hs ha hv,
   fun fc h3 h6 h16 => build_request_unsupported (some value) fc h3 h6 h16,
   by rfl, by rfl, by rfl, by rfl⟩

/-- Witness for C1 at slave 2, register 0x20, value 0x1234, count 1. -/
theorem C1_build_request_layout_witness :
    build_request 2 6 0x20 (some 0x1234) 1 =
      .ok (withCrc [2, 6, 0, 0x20, 0x12, 0x34]) :=
  (C1_build_request_layout 2 0x20 0x1234 1 (by decide) (by decide) (by decide)
    (by decide)).2.1

/-- Claim C3: appending the CRC16 of a byte sequence little-endian and
re-checking it with the codec's own verification (`crcCheck`, the check
`parse_response` performs) succeeds — equivalently, the little-endian
encoding decodes back to the freshly recomputed CRC; and flipping any
single bit of any byte of the sequence changes the computed CRC. -/
theorem C3_crc_verify_bitflip (seq : List Nat) (hseq : ∀ b ∈ seq, b < 256) :
    crcCheck (withCrc seq) = true
    ∧ calculate_crc16 seq % 256 + 256 * (calculate_crc16 seq / 256) =
        calculate_crc16 seq
    ∧ ∀ i, i < seq.length → ∀ j, j < 8 →
        calculate_crc16 (seq.set i (seq.getD i 0 ^^^ 2 ^ j)) ≠ calculate_crc16 seq := by
  have h16 : ∀ b ∈ seq, b < 65536 := fun b hb => lt_trans (hseq b hb) (by norm_num)
  have hcrc : calculate_crc16 seq < 65536 := calculate_crc16_lt h16
  refine ⟨?_, by omega, ?_⟩
  · unfold crcCheck withCrc
    have hl : (seq ++ [calculate_crc16 seq % 256, calculate_crc16 seq / 256]).length - 2 =
        seq.length := by simp
    rw [hl, List.drop_left' rfl, List.take_left' rfl]
    simp only [unpackLE2, List.getD_cons_zero, List.getD_cons_succ, beq_iff_eq]
    omega
  · intro i hi j hj
    have hgd : seq.getD i 0 = seq[i] := by
      simp [List.getD_eq_getElem?_getD, List.getElem?_eq_getElem hi]
    have hmem : seq[i] ∈ seq := List.getElem_mem hi
    have hblt : seq[i] < 256 := hseq _ hmem
    have hpow : (2 : Nat) ^ j < 256 := by
      calc (2 : Nat) ^ j ≤ 2 ^ 7 := Nat.pow_le_pow_right (by norm_num) (by omega)
      _ < 256 := by norm_num
    have hb' : seq[i] ^^^ 2 ^ j < 256 :=
      Nat.xor_lt_two_pow (n := 8) hblt hpow
    have hne : seq[i] ^^^ 2 ^ j ≠ seq[i] := by
      intro h
      have h0 : seq[i] ^^^ 2 ^ j = seq[i] ^^^ 0 := by
        simpa using h
      have := xor_right_inj h0
      exact absurd this (Nat.pos_iff_ne_zero.mp (Nat.pos_pow_of_pos j (by norm_num)))
    have hdecomp : seq = seq.take i ++ seq[i] :: seq.drop (i + 1) := by
      conv_lhs => rw [← List.take_append_drop i seq]
      rw [List.drop_eq_getElem_cons hi]
    have hset : seq.set i (seq.getD i 0 ^^^ 2 ^ j) =
        seq.take i ++ (seq[i] ^^^ 2 ^ j) :: seq.drop (i + 1) := by
      rw [hgd]
      exact List.set_eq_take_cons_drop _ hi
    rw [hset]
    conv_rhs => rw [hdecomp]
    exact crc_byte_change
      (fun x hx => h16 x (List.mem_of_mem_take hx))
      (fun x hx => h16 x (List.mem_of_mem_drop hx))
      (lt_trans hb' (by norm_num)) (lt_trans hblt (by norm_num)) hne

/-- Witness for C3: CRC round-trip on the read-STATUS frame data and a
flip of bit 0 of byte 0. -/
theorem C3_crc_verify_bitflip_witness :
    crcCheck (withCrc [1, 3, 0, 80, 0, 1]) = true
    ∧ calculate_crc16 (([1, 3, 0, 80, 0, 1] : List Nat).set 0
        (([1, 3, 0, 80, 0, 1] : List Nat).getD 0 0 ^^^ 2 ^ 0)) ≠
      calculate_crc16 [1, 3, 0, 80, 0, 1] :=
  ⟨(C3_crc_verify_bitflip [1, 3, 0, 80, 0, 1] (by decide)).1,
   (C3_crc_verify_bitflip [1, 3, 0, 80, 0, 1] (by decide)).2.2 0 (by decide) 0 (by decide)⟩

/-! ## parse_response facts -/

lemma parse_response_some {r : List Nat} {v : Nat} (h : parse_response r = some v) :
    5 ≤ r.length ∧ crcCheck r = true := by
  unfold parse_response at h
  by_cases h5 : r.length < 5
  · rw [if_pos h5] at h
    exact absurd h (by simp)
  · rw [if_neg h5] at h
    refine ⟨by omega, ?_⟩
    by_cases hc : crcCheck r = true
    · exact hc
    · rw [if_neg (by simpa using hc)] at h
      exact absurd h (by simp)

lemma parse_response_none_of_crcFail {r : List Nat} (hc : crcCheck r = false) :
    parse_response r = none := by
  simp [parse_response, hc]

lemma unpackBE2_drop_take (r : List Nat) (k : Nat) :
    unpackBE2 ((r.drop k).take 2) = r.getD k 0 * 256 + r.getD (k + 1) 0 := by
  simp [unpackBE2, List.getD_eq_getElem?_getD, List.getElem?_take, List.getElem?_drop]

/-- Splitting the CRC-check slices of a frame whose changed byte lies in
the data region (at least two bytes of suffix after it). -/
lemma crcCheck_slices_data (pre suf : List Nat) (b : Nat) (h2 : 2 ≤ suf.length) :
    (pre ++ b :: suf).take ((pre ++ b :: suf).length - 2) =
      pre ++ b :: suf.take (suf.length - 2)
    ∧ (pre ++ b :: suf).drop ((pre ++ b :: suf).length - 2) =
      suf.drop (suf.length - 2) := by
  constructor
  · rw [List.take_append_eq_append_take, List.take_of_length_le (by simp; omega)]
    congr 1
    have he : (pre ++ b :: suf).length - 2 - pre.length = (suf.length - 2) + 1 := by
      simp
      omega
    rw [he, List.take_succ_cons]
  · rw [List.drop_append_eq_append_drop, List.drop_eq_nil_of_le (by simp; omega)]
    have he : (pre ++ b :: suf).length - 2 - pre.length = (suf.length - 2) + 1 := by
      simp
      omega
    rw [he, List.drop_succ_cons, List.nil_append]

/-- Slices of the CRC check when the frame is a data part followed by
exactly two trailing bytes. -/
lemma crcCheck_slices_tail (q : List Nat) (x c : Nat) :
    (q ++ [x, c]).take ((q ++ [x, c]).length - 2) = q
    ∧ (q ++ [x, c]).drop ((q ++ [x, c]).length - 2) = [x, c] := by
  have hl : (q ++ [x, c]).length - 2 = q.length := by simp
  rw [hl]
  exact ⟨List.take_left q [x, c], List.drop_left q [x, c]⟩

/-- Corrupting a single byte of a frame `parse_response` accepts makes it
reject: a change in the data region changes the freshly computed CRC while
the received CRC stays, and a change in either CRC byte changes the
received CRC while the computed one stays. -/
lemma parse_response_corrupt {pre suf : List Nat} {b b' v : Nat}
    (hbytes : ∀ x ∈ pre ++ b :: suf, x < 256) (hb'8 : b' < 256) (hne : b' ≠ b)
    (hok : parse_response (pre ++ b :: suf) = some v) :
    parse_response (pre ++ b' :: suf) = none := by
  obtain ⟨h5, hchk⟩ := parse_response_some hok
  have hchk' : unpackLE2 ((pre ++ b :: suf).drop ((pre ++ b :: suf).length - 2)) =
      calculate_crc16 ((pre ++ b :: suf).take ((pre ++ b :: suf).length - 2)) := by
    simpa [crcCheck] using hchk
  apply parse_response_none_of_crcFail
  rw [crcCheck, beq_eq_false_iff_ne]
  rcases Nat.lt_or_ge suf.length 2 with hlt | hge
  · rcases Nat.lt_or_ge suf.length 1 with h0 | h1
    · -- `suf = []`: the corrupted byte is the CRC high byte
      have hnil : suf = [] := List.eq_nil_of_length_eq_zero (by omega)
      subst hnil
      have hm : 4 ≤ pre.length := by
        simp at h5
        omega
      have hlen1 : (pre.drop (pre.length - 1)).length = 1 := by
        simp
        omega
      obtain ⟨x, hx⟩ := List.length_eq_one.mp hlen1
      have hr : ∀ c : Nat, pre ++ [c] = pre.take (pre.length - 1) ++ [x, c] := by
        intro c
        conv_lhs => rw [← List.take_append_drop (pre.length - 1) pre]
        rw [hx]
        simp
      rw [hr b] at hchk'
      rw [hr b']
      obtain ⟨ht, hd⟩ := crcCheck_slices_tail (pre.take (pre.length - 1)) x b
      rw [ht, hd] at hchk'
      obtain ⟨ht', hd'⟩ := crcCheck_slices_tail (pre.take (pre.length - 1)) x b'
      rw [ht', hd']
      simp only [unpackLE2, List.getD_cons_zero, List.getD_cons_succ] at hchk' ⊢
      omega
    · -- `suf = [s]`: the corrupted byte is the CRC low byte
      have h1' : suf.length = 1 := by omega
      obtain ⟨s, rfl⟩ := List.length_eq_one.mp h1'
      obtain ⟨ht, hd⟩ := crcCheck_slices_tail pre b s
      rw [ht, hd] at hchk'
      obtain ⟨ht', hd'⟩ := crcCheck_slices_tail pre b' s
      rw [ht', hd']
      simp only [unpackLE2, List.getD_cons_zero, List.getD_cons_succ] at hchk' ⊢
      omega
  · -- at least two bytes follow: the corrupted byte is in the CRC-covered
    -- data region, so the recomputed CRC changes
    obtain ⟨ht, hd⟩ := crcCheck_slices_data pre suf b hge
    rw [ht, hd] at hchk'
    obtain ⟨ht', hd'⟩ := crcCheck_slices_data pre suf b' hge
    rw [ht', hd']
    intro heq
    have hcc : calculate_crc16 (pre ++ b :: suf.take (suf.length - 2)) =
        calculate_crc16 (pre ++ b' :: suf.take (suf.length - 2)) := by
      rw [← hchk', heq]
    have hpre65 : ∀ x ∈ pre, x < 65536 := fun x hx =>
      lt_trans (hbytes x (List.mem_append_left _ hx)) (by norm_num)
    have hsuf65 : ∀ x ∈ suf.take (suf.length - 2), x < 65536 := fun x hx =>
      lt_trans
        (hbytes x (List.mem_append_right _ (List.mem_cons_of_mem b (List.mem_of_mem_take hx))))
        (by norm_num)
    have hb65 : b < 65536 :=
      lt_trans (hbytes b (List.mem_append_right _ (List.mem_cons_self b suf))) (by norm_num)
    have hb'65 : b' < 65536 := lt_trans hb'8 (by norm_num)
    exact crc_byte_change hpre65 hsuf65 hb65 hb'65 (fun h => hne h.symm) hcc

lemma parse_response_fc3 {r : List Nat} (h7 : 7 ≤ r.length) (hc : crcCheck r = true)
    (hfc : r.getD 1 0 = 3) :
    parse_response r = some (r.getD 3 0 * 256 + r.getD 4 0) := by
  rw [List.getD_eq_getElem?_getD] at hfc
  simp [parse_response, hc, hfc, show ¬(r.length < 5) by omega, h7, unpackBE2_drop_take]

lemma parse_response_fc6 {r : List Nat} (h8 : 8 ≤ r.length) (hc : crcCheck r = true)
    (hfc : r.getD 1 0 = 6) :
    parse_response r = some (r.getD 4 0 * 256 + r.getD 5 0) := by
  rw [List.getD_eq_getElem?_getD] at hfc
  simp [parse_response, hc, hfc, show ¬(r.length < 5) by omega, h8, unpackBE2_drop_take]

/-- Claim C2: `parse_response` yields no value on frames shorter than 5
bytes and on CRC mismatch; with a valid CRC it decodes the big-endian
16-bit value at offset 3 for function code 3 (length ≥ 7) and at offset 4
for function code 6 (length ≥ 8); any other function code, or insufficient
length for the matching code, yields no value; and corrupting any single
byte of a response it accepts (to a different byte value, without
recomputing the CRC) makes it yield no value. -/
theorem C2_parse_response_spec (r : List Nat) :
    (r.length < 5 → parse_response r = none)
    ∧ (5 ≤ r.length →
        unpackLE2 (r.drop (r.length - 2)) ≠ calculate_crc16 (r.take (r.length - 2)) →
        parse_response r = none)
    ∧ (7 ≤ r.length → crcCheck r = true → r.getD 1 0 = 3 →
        parse_response r = some (r.getD 3 0 * 256 + r.getD 4 0))
    ∧ (8 ≤ r.length → crcCheck r = true → r.getD 1 0 = 6 →
        parse_response r = some (r.getD 4 0 * 256 + r.getD 5 0))
    ∧ (r.getD 1 0 ≠ 3 → r.getD 1 0 ≠ 6 → parse_response r = none)
    ∧ (r.getD 1 0 = 3 → r.length < 7 → parse_response r = none)
    ∧ (r.getD 1 0 = 6 → r.length < 8 → parse_response r = none)
    ∧ (∀ pre b suf b' v, r = pre ++ b :: suf → (∀ x ∈ r, x < 256) → b' < 256 →
        b' ≠ b → parse_response r = some v → parse_response (pre ++ b' :: suf) = none) := by
  refine ⟨?_, ?_, parse_response_fc3, parse_response_fc6, ?_, ?_, ?_, ?_⟩
  · intro h
    simp [parse_response, h]
  · intro _ hne
    apply parse_response_none_of_crcFail
    rw [crcCheck, beq_eq_false_iff_ne]
    exact hne
  · intro h3 h6
    rw [List.getD_eq_getElem?_getD] at h3 h6
    simp [parse_response, h3, h6]
  · intro hfc h7
    rw [List.getD_eq_getElem?_getD] at hfc
    simp [parse_response, hfc, show ¬(7 ≤ r.length) by omega]
  · intro hfc h8
    rw [List.getD_eq_getElem?_getD] at hfc
    simp [parse_response, hfc, show ¬(8 ≤ r.length) by omega]
  · intro pre b suf b' v hr hb hb' hne hok
    subst hr
    exact parse_response_corrupt hb hb' hne hok

/-- Witness for C2: corrupting the slave-address byte of the accepted echo
frame `01 06 00 40 00 01 49 DE` to 2 makes the parse fail. -/
theorem C2_parse_response_spec_witness :
    parse_response [2, 6, 0, 64, 0, 1, 73, 222] = none :=
  (C2_parse_response_spec [1, 6, 0, 64, 0, 1, 73, 222]).2.2.2.2.2.2.2
    [] 1 [6, 0, 64, 0, 1, 73, 222] 2 1 rfl (by decide) (by decide) (by decide) (by decide)

/-- Claim C6: for every slave id, register address and value (in their wire
ranges), parsing the function-code-6 frame produced by `build_request`
returns exactly the written value — the codec round trip is the identity
for a device that echoes a write-single-register request back. -/
theorem C6_roundtrip (slave addr value : Nat)
    (hs : slave < 256) (ha : addr < 65536) (hv : value < 65536) :
    ∃ frame, build_request slave 6 addr (some value) 1 = .ok frame ∧
      parse_response frame = some value := by
  refine ⟨withCrc [slave, 6, addr / 256, addr % 256, value / 256, value % 256],
    build_request_fc6 hs ha hv, ?_⟩
  have hd : ∀ x ∈ [slave, 6, addr / 256, addr % 256, value / 256, value % 256],
      x < 65536 := by
    intro x hx
    simp at hx
    rcases hx with h | h | h | h | h | h <;> subst h <;> omega
  have hcrc : calculate_crc16 [slave, 6, addr / 256, addr % 256, value / 256, value % 256] <
      65536 := calculate_crc16_lt hd
  set c := calculate_crc16 [slave, 6, addr / 256, addr % 256, value / 256, value % 256]
    with hc
  have hframe : withCrc [slave, 6, addr / 256, addr % 256, value / 256, value % 256] =
      [slave, 6, addr / 256, addr % 256, value / 256, value % 256] ++ [c % 256, c / 256] :=
    rfl
  rw [hframe]
  have hlen : ([slave, 6, addr / 256, addr % 256, value / 256, value % 256] ++
      [c % 256, c / 256]).length = 8 := by simp
  obtain ⟨ht, hdrop⟩ :=
    crcCheck_slices_tail [slave, 6, addr / 256, addr % 256, value / 256, value % 256]
      (c % 256) (c / 256)
  have hchk : crcCheck ([slave, 6, addr / 256, addr % 256, value / 256, value % 256] ++
      [c % 256, c / 256]) = true := by
    rw [crcCheck, ht, hdrop, beq_iff_eq]
    simp only [unpackLE2, List.getD_cons_zero, List.getD_cons_succ]
    omega
  rw [parse_response_fc6 (by omega) hchk (by simp)]
  simp
  omega

/-- Witness for C6 at slave 1, register 0x40 (START_STOP), value 1. -/
theorem C6_roundtrip_witness :
    ∃ frame, build_request 1 6 0x40 (some 1) 1 = .ok frame ∧
      parse_response frame = some 1 :=
  C6_roundtrip 1 0x40 1 (by decide) (by decide) (by decide)

lemma getD_lt_256 {r : List Nat} (hb : ∀ b ∈ r, b < 256) (i : Nat) :
    r.getD i 0 < 256 := by
  rcases Nat.lt_or_ge i r.length with h | h
  · rw [List.getD_eq_getElem?_getD, List.getElem?_eq_getElem h, Option.getD_some]
    exact hb _ (List.getElem_mem h)
  · rw [List.getD_eq_getElem?_getD, List.getElem?_eq_none (by omega), Option.getD_none]
    norm_num

/-- Claim C10: `parse_response` is total — for every byte list it returns
`none` or a 16-bit value, never an error: any input shorter than 7 bytes
(including lengths 5 and 6, which pass the minimum-length check but are
too short for either decode offset) yields `none`, and every slice the
code takes under its guards has exactly the in-bounds size the following
`struct.unpack` needs. -/
theorem C10_parse_response_total (r : List Nat) :
    (r.length < 7 → parse_response r = none)
    ∧ ((∀ b ∈ r, b < 256) →
        parse_response r = none ∨ ∃ v, v < 65536 ∧ parse_response r = some v)
    ∧ (5 ≤ r.length → (r.drop (r.length - 2)).length = 2
        ∧ (r.take (r.length - 2)).length = r.length - 2 ∧ 1 < r.length)
    ∧ (7 ≤ r.length → ((r.drop 3).take 2).length = 2)
    ∧ (8 ≤ r.length → ((r.drop 4).take 2).length = 2) := by
  refine ⟨?_, ?_, ?_, ?_, ?_⟩
  · intro h7
    by_cases h5 : r.length < 5
    · simp [parse_response, h5]
    · simp [parse_response, h5, show ¬(7 ≤ r.length) by omega,
        show ¬(8 ≤ r.length) by omega]
  · intro hb
    by_cases h5 : r.length < 5
    · left
      simp [parse_response, h5]
    · rcases Bool.eq_false_or_eq_true (crcCheck r) with hc | hc
      swap
      · left
        exact parse_response_none_of_crcFail hc
      · by_cases h3 : r.getD 1 0 = 3
        · by_cases h7 : 7 ≤ r.length
          · right
            refine ⟨r.getD 3 0 * 256 + r.getD 4 0, ?_, parse_response_fc3 h7 hc h3⟩
            have g3 := getD_lt_256 hb 3
            have g4 := getD_lt_256 hb 4
            omega
          · left
            rw [List.getD_eq_getElem?_getD] at h3
            simp [parse_response, h3, show ¬(7 ≤ r.length) by omega]
        · by_cases h6 : r.getD 1 0 = 6
          · by_cases h8 : 8 ≤ r.length
            · right
              refine ⟨r.getD 4 0 * 256 + r.getD 5 0, ?_, parse_response_fc6 h8 hc h6⟩
              have g4 := getD_lt_256 hb 4
              have g5 := getD_lt_256 hb 5
              omega
            · left
              rw [List.getD_eq_getElem?_getD] at h6
              simp [parse_response, h6, show ¬(8 ≤ r.length) by omega]
          · left
            rw [List.getD_eq_getElem?_getD] at h3 h6
            simp [parse_response, h3, h6]
  · intro h5
    refine ⟨?_, ?_, by omega⟩
    · rw [List.length_drop]
      omega
    · rw [List.length_take]
      omega
  · intro h7
    simp
    omega
  · intro h8
    simp
    omega

/-- Witness for C10: the empty input and a well-formed response. -/
theorem C10_parse_response_total_witness :
    parse_response [] = none
    ∧ (parse_response [1, 6, 0, 64, 0, 1, 73, 222] = none ∨
        ∃ v, v < 65536 ∧ parse_response [1, 6, 0, 64, 0, 1, 73, 222] = some v) :=
  ⟨(C10_parse_response_total []).1 (by decide),
   (C10_parse_response_total [1, 6, 0, 64, 0, 1, 73, 222]).2.1 (by decide)⟩

end ModbusRTU

/-! ## Claim theorems for the transaction engine -/

namespace ISPLab02ModbusController

lemma REGISTERS_bounds {name : String} {addr : Nat} (h : REGISTERS name = some addr) :
    0 < addr ∧ addr < 65536 := by
  unfold REGISTERS at h
  split_ifs at h <;> simp_all <;> omega

/-- Claim C4 — counterexample to the claim as stated: with the session
connected and a known register, reading with an empty channel response
(the timeout case) and reading with an unparseable one-byte response (the
protocol-error case) produce *identical* outcomes at the call site, so the
two failure kinds are not distinguishable there. -/
theorem C4_counterexample :
    ModbusRTU.parse_response [0] = none
    ∧ ([0] : List Nat) ≠ []
    ∧ read_register true 1 "STATUS" [] = read_register true 1 "STATUS" [0]
    ∧ write_register true 1 "START_STOP" 1 [] = write_register true 1 "START_STOP" 1 [0] :=
  ⟨by decide, by decide, by rfl, by rfl⟩

/-- Claim C4 as amended: when connected with a known register, a timeout
(no bytes read) yields the no-value/`False` outcome, and a parse failure
on read-back bytes yields the *same* no-value/`False` outcome — the two
failure kinds are logged differently but conflated in the returned value. -/
theorem C4_failure_outcomes (slave : Nat) (name : String) (addr value : Nat)
    (response : List Nat)
    (hs : slave < 256) (hreg : REGISTERS name = some addr) (hv : value < 65536) :
    ((read_register true slave name response).1 =
      if response.isEmpty then none else ModbusRTU.parse_response response)
    ∧ ((write_register true slave name value response).1 =
      if response.isEmpty then false else (ModbusRTU.parse_response response).isSome)
    ∧ (read_register true slave name []).1 = none
    ∧ (ModbusRTU.parse_response response = none →
        (read_register true slave name response).1 = none
        ∧ (write_register true slave name value response).1 = false) := by
  obtain ⟨hpos, hlt⟩ := REGISTERS_bounds hreg
  have hne0 : ¬(addr = 0) := by omega
  have hread : (read_register true slave name response).1 =
      if response.isEmpty then none else ModbusRTU.parse_response response := by
    cases response with
    | nil =>
      simp [read_register, hreg, hne0,
        ModbusRTU.build_request_fc3 none hs hlt (show (1 : Nat) < 65536 by norm_num)]
    | cons x xs =>
      simp [read_register, hreg, hne0,
        ModbusRTU.build_request_fc3 none hs hlt (show (1 : Nat) < 65536 by norm_num)]
  have hwrite : (write_register true slave name value response).1 =
      if response.isEmpty then false else (ModbusRTU.parse_response response).isSome := by
    cases response with
    | nil =>
      simp [write_register, hreg, hne0, ModbusRTU.build_request_fc6 hs hlt hv]
    | cons x xs =>
      cases hp : ModbusRTU.parse_response (x :: xs) <;>
        simp [write_register, hreg, hne0, hp, ModbusRTU.build_request_fc6 hs hlt hv]
  refine ⟨hread, hwrite, ?_, ?_⟩
  · simp [read_register, hreg, hne0,
      ModbusRTU.build_request_fc3 none hs hlt (show (1 : Nat) < 65536 by norm_num)]
  · intro hp
    constructor
    · rw [hread]
      split <;> simp [hp]
    · rw [hwrite]
      split <;> simp [hp]

/-- Witness for the amended C4 at slave 1, STATUS register, an unparseable
single-byte response. -/
theorem C4_failure_outcomes_witness :
    (read_register true 1 "STATUS" [0]).1 = none
    ∧ (write_register true 1 "STATUS" 1 [0]).1 = false :=
  (C4_failure_outcomes 1 "STATUS" 0x50 1 [0] (by decide) (by rfl) (by decide)).2.2.2
    (by decide)

/-- Claim C7: with the session disconnected, `read_register` and
`write_register` fail without writing anything to the channel; with the
session connected but an unknown register name — any name other than the
eight of the fixed table — they also fail without writing anything, so no
transaction ever executes while disconnected or on an unknown register. -/
theorem C7_preconditions (slave value : Nat) (name : String) (resp : List Nat) :
    read_register false slave name resp = (none, [])
    ∧ write_register false slave name value resp = (false, [])
    ∧ (REGISTERS name = none →
        read_register true slave name resp = (none, [])
        ∧ write_register true slave name value resp = (false, []))
    ∧ (name ∉ ["MODE", "FLOW_RATE", "VOLUME", "SYRINGE_DIA", "START_STOP",
        "STATUS", "DIRECTION", "LINEAR_SPEED"] → REGISTERS name = none) := by
  refine ⟨by simp [read_register], by simp [write_register], ?_, ?_⟩
  · intro h
    exact ⟨by simp [read_register, h], by simp [write_register, h]⟩
  · intro hmem
    have h1 : ¬(name = "MODE") := fun h => hmem (by simp [h])
    have h2 : ¬(name = "FLOW_RATE") := fun h => hmem (by simp [h])
    have h3 : ¬(name = "VOLUME") := fun h => hmem (by simp [h])
    have h4 : ¬(name = "SYRINGE_DIA") := fun h => hmem (by simp [h])
    have h5 : ¬(name = "START_STOP") := fun h => hmem (by simp [h])
    have h6 : ¬(name = "STATUS") := fun h => hmem (by simp [h])
    have h7 : ¬(name = "DIRECTION") := fun h => hmem (by simp [h])
    have h8 : ¬(name = "LINEAR_SPEED") := fun h => hmem (by simp [h])
    simp [REGISTERS, h1, h2, h3, h4, h5, h6, h7, h8]

/-- Witness for C7: the unknown register name `PRESSURE` on a connected
session performs no channel I/O. -/
theorem C7_preconditions_witness :
    read_register true 1 "PRESSURE" [] = (none, [])
    ∧ REGISTERS "PRESSURE" = none :=
  ⟨((C7_preconditions 1 1 "PRESSURE" []).2.2.1 (by rfl)).1,
   (C7_preconditions 1 1 "PRESSURE" []).2.2.2 (by decide)⟩

/-- Claim C8: `disconnect` is idempotent on the session state — calling it
on a never-opened session is a no-op, calling it twice equals calling it
once on every state, and on every well-formed state one call leaves the
session disconnected with no open channel handle.  The command-string
variant's `disconnect` is the same function. -/
theorem C8_disconnect_idempotent :
    (∀ s : Session, disconnect (disconnect s) = disconnect s)
    ∧ disconnect Session.init = Session.init
    ∧ (∀ s : Session, s.wf → (disconnect s).is_connected = false
        ∧ (disconnect s).serial_conn ≠ some true)
    ∧ (∀ s : Session, ISPLab02Controller.disconnect s = disconnect s) := by
  refine ⟨?_, by rfl, ?_, fun s => rfl⟩
  · intro s
    rcases s with ⟨_ | b, ic⟩
    · cases ic <;> rfl
    · cases b <;> cases ic <;> rfl
  · intro s hwf
    rcases s with ⟨_ | b, ic⟩
    · cases ic <;> simp_all [Session.wf, disconnect]
    · cases b <;> cases ic <;> simp_all [Session.wf, disconnect]

/-- Witness for C8 on the open connected session. -/
theorem C8_disconnect_idempotent_witness :
    (disconnect (Session.mk (some true) true)).is_connected = false
    ∧ (disconnect (Session.mk (some true) true)).serial_conn ≠ some true :=
  C8_disconnect_idempotent.2.2.1 (Session.mk (some true) true) (by simp [Session.wf])

/-- Claim C9: `save_to_memory` and `load_from_memory` accept every slot in
1..60 and reject every slot outside (in particular 0 and 61), and in
neither case write anything to the channel. -/
theorem C9_memory_slots (slot : Int) :
    ((1 ≤ slot ∧ slot ≤ 60) → save_to_memory slot = (true, [])
        ∧ load_from_memory slot = (true, []))
    ∧ (¬(1 ≤ slot ∧ slot ≤ 60) → save_to_memory slot = (false, [])
        ∧ load_from_memory slot = (false, []))
    ∧ (save_to_memory slot).2 = [] ∧ (load_from_memory slot).2 = []
    ∧ save_to_memory 1 = (true, []) ∧ save_to_memory 60 = (true, [])
    ∧ save_to_memory 0 = (false, []) ∧ save_to_memory 61 = (false, [])
    ∧ load_from_memory 1 = (true, []) ∧ load_from_memory 60 = (true, [])
    ∧ load_from_memory 0 = (false, []) ∧ load_from_memory 61 = (false, []) := by
  refine ⟨?_, ?_, ?_, ?_, by decide, by decide, by decide, by decide, by decide,
    by decide, by decide, by decide⟩
  · intro h
    constructor
    · unfold save_to_memory
      rw [if_neg (not_not_intro h)]
    · unfold load_from_memory
      rw [if_neg (not_not_intro h)]
  · intro h
    constructor
    · unfold save_to_memory
      rw [if_pos h]
    · unfold load_from_memory
      rw [if_pos h]
  · unfold save_to_memory
    split <;> rfl
  · unfold load_from_memory
    split <;> rfl

/-- Witness for C9 at slot 5. -/
theorem C9_memory_slots_witness :
    save_to_memory 5 = (true, []) ∧ load_from_memory 5 = (true, []) :=
  (C9_memory_slots 5).1 (by decide)

section RatEval

attribute [local semireducible] Rat.ofScientific Rat.mul Rat.add Rat.sub Rat.inv

/-- Claim C5 — counterexample to the claim as stated: 700 μL/min is inside
the validated interval 0.002–165871, yet `set_flow_rate` on a connected
session issues *no* write transaction and fails, because the scaled
register value `int(700 * 100) = 70000` does not fit the 16-bit register
field of the write request (the `struct.pack` range check raises before
any channel write). -/
theorem C5_counterexample :
    ((0.002 : ℚ) ≤ 700 ∧ (700 : ℚ) ≤ 165871)
    ∧ ((700 : ℚ) * 100).floor.toNat = 70000
    ∧ set_flow_rate true 1 700 [] = (false, []) := by
  refine ⟨by decide, by decide, ?_⟩
  unfold set_flow_rate
  rw [if_neg (not_not_intro (by decide))]
  rw [show (((700 : ℚ) * 100).floor.toNat) = 70000 by decide]
  decide

/-- Claim C5 as amended: both variants validate the flow rate against
their fixed closed interval before any wire interaction — out-of-range
values (in particular 0.0015 and 200000) fail with nothing written to the
channel; an in-range value whose scaled register value `int(rate*100)`
fits in 16 bits (in particular 100.0, scaled to 10000) issues exactly one
write transaction to the FLOW_RATE register on the Modbus-RTU variant;
in-range values on the command-string variant send exactly one command. -/
theorem C5_set_flow_rate_validation (c : Bool) (slave : Nat) (rate : ℚ)
    (resp : List Nat) (respS : String) :
    (¬((0.002 : ℚ) ≤ rate ∧ rate ≤ 165871) →
        set_flow_rate c slave rate resp = (false, []))
    ∧ (((0.002 : ℚ) ≤ rate ∧ rate ≤ 165871) → slave < 256 →
        (rate * 100).floor.toNat < 65536 →
        ∃ req, set_flow_rate true slave rate resp =
          ((if resp.isEmpty then false
            else (ModbusRTU.parse_response resp).isSome), [req]))
    ∧ set_flow_rate c slave 0.0015 resp = (false, [])
    ∧ set_flow_rate c slave 200000 resp = (false, [])
    ∧ (set_flow_rate true 1 100 resp).2 = [ModbusRTU.withCrc [1, 6, 0, 16, 39, 16]]
    ∧ (¬((0.001 : ℚ) ≤ rate ∧ rate ≤ 127000) →
        ISPLab02Controller.set_flow_rate c rate respS = (false, []))
    ∧ (((0.001 : ℚ) ≤ rate ∧ rate ≤ 127000) →
        ∃ cmd, (ISPLab02Controller.set_flow_rate true rate respS).2 = [cmd]) := by
  have hflow : REGISTERS "FLOW_RATE" = some 16 := by rfl
  refine ⟨?_, ?_, ?_, ?_, ?_, ?_, ?_⟩
  · intro h
    unfold set_flow_rate
    rw [if_pos h]
  · intro h hs hv
    unfold set_flow_rate
    rw [if_neg (not_not_intro h)]
    refine ⟨ModbusRTU.withCrc [slave, 6, 16 / 256, 16 % 256,
      (rate * 100).floor.toNat / 256, (rate * 100).floor.toNat % 256], ?_⟩
    cases resp with
    | nil =>
      simp [write_register, hflow,
        ModbusRTU.build_request_fc6 hs (show (16 : Nat) < 65536 by norm_num) hv]
    | cons x xs =>
      cases hp : ModbusRTU.parse_response (x :: xs) <;>
        simp [write_register, hflow, hp,
          ModbusRTU.build_request_fc6 hs (show (16 : Nat) < 65536 by norm_num) hv]
  · unfold set_flow_rate
    rw [if_pos (by decide)]
  · unfold set_flow_rate
    rw [if_pos (by decide)]
  · unfold set_flow_rate
    rw [if_neg (not_not_intro (by decide))]
    rw [show (((100 : ℚ) * 100).floor.toNat) = 10000 by decide]
    have hb := @ModbusRTU.build_request_fc6 1 16 10000 1
      (show (1 : Nat) < 256 by norm_num) (show (16 : Nat) < 65536 by norm_num)
      (show (10000 : Nat) < 65536 by norm_num)
    cases resp with
    | nil => simp [write_register, hflow, hb]
    | cons x xs =>
      cases hp : ModbusRTU.parse_response (x :: xs) <;>
        simp [write_register, hflow, hp, hb]
  · intro h
    unfold ISPLab02Controller.set_flow_rate
    rw [if_pos h]
  · intro h
    unfold ISPLab02Controller.set_flow_rate
    rw [if_neg (not_not_intro h)]
    simp [ISPLab02Controller.send_command]

/-- Witness for the amended C5: 0.0015 is rejected with no I/O, and 100.0
issues exactly one write transaction. -/
theorem C5_set_flow_rate_validation_witness :
    set_flow_rate true 1 0.0015 [] = (false, [])
    ∧ ∃ req, set_flow_rate true 1 100 [] =
        ((if ([] : List Nat).isEmpty then false
          else (ModbusRTU.parse_response ([] : List Nat)).isSome), [req]) :=
  ⟨(C5_set_flow_rate_validation true 1 0.0015 [] "").2.2.1,
   (C5_set_flow_rate_validation true 1 100 [] "").2.1 (by decide) (by decide) (by decide)⟩

end RatEval

end ISPLab02ModbusController

end SyringePump
